import Mathlib

/-!
# Verification of the AutoCheckRH reconciliation pipeline

Shallow embedding of the fetch–extract–match–classify pipeline of the
AutoCheckRH repository (`compare_planilha.py`, `tests/make_planilha.py`,
`qr_crawler.py`, `crawler.py`) together with proofs about the embedded
definitions.

Conventions of the embedding:
* Python `str` is Lean `String`; character-level processing works on `s.data`.
* Python `None` / optional values are `Option`.
* Monetary values parsed by the currency parsers are modelled as `ℚ`
  (the decimal literals handled by these parsers and all business
  thresholds 40, 55, 100 are exact in both `ℚ` and IEEE doubles, and no
  arithmetic beyond parsing and comparison is performed on them).
* Wall-clock instants used by the throttle registry are modelled as `ℚ`.
-/

namespace AutoCheckRH

/-! ## Document-number normalisation

`compare_planilha.normalize_num` and `make_planilha.normalize_num_for_compare`
both take the first run of consecutive decimal digits found by
`re.search(r"(\d+)", s)`, strip leading zeros (`lstrip('0') or '0'`) and
convert with `int`.  (`normalize_num_for_compare` additionally strips the
string and returns early on the empty string first; both extra steps are
absorbed by the digit-run search, which finds no run in an empty string and
is insensitive to surrounding whitespace.) -/

/-- Numeric value of a decimal digit character. -/
def digitVal (c : Char) : Nat := c.toNat - 48

/-- Decimal value of a digit string. -/
def digitsVal (ds : List Char) : Nat := ds.foldl (fun a c => 10 * a + digitVal c) 0

/-- First maximal run of consecutive decimal digits of the character list;
models `re.search(r"(\d+)", s)` (ASCII digits). -/
def firstDigitRun : List Char → Option (List Char)
  | [] => none
  | c :: rest =>
      if c.isDigit then some (c :: rest.takeWhile Char.isDigit)
      else firstDigitRun rest

/-- `lstrip('0') or '0'`: drop leading zeros, an all-zero run becomes `"0"`. -/
def stripLeadingZeros (ds : List Char) : List Char :=
  let r := ds.dropWhile (fun c => c = '0')
  if r = [] then ['0'] else r

/-- `normalize_num` of `compare_planilha.py` (equally
`normalize_num_for_compare` of `make_planilha.py`): first digit run,
leading zeros stripped, read as an integer; absent when no digit occurs. -/
def normalize_num (s : String) : Option Nat :=
  (firstDigitRun s.data).map (fun ds => digitsVal (stripLeadingZeros ds))

/-- `normalize_num` applied to an optional raw field (`r.get('numero')`
may give `None`, on which Python's `normalize_num` returns `None`). -/
def normNumOpt (o : Option String) : Option Nat := o.bind normalize_num

/-! ## The matcher (`find_best` / `find_best_match`) -/

/-- One row of the extracted planilha, as consumed by the matcher and the
classifier: the raw `numero`, `valor_pagar` and `emissao` fields
(`Option` because Python's `dict.get` yields `None` on a missing key).
Further CSV columns carried by the Python dict are irrelevant to every
function modelled here. -/
structure PlanRow where
  numero : Option String
  valor_pagar : Option String
  emissao : Option String
deriving DecidableEq, Repr

/-- Absolute difference of two naturals, as `abs(num - target)` on ints. -/
def natDist (a b : Nat) : Nat := Int.natAbs ((a : Int) - (b : Int))

/-- The absolute difference of a candidate's normalized number to the
target, absent when the candidate has no normalized number. -/
def diffOf (t : Nat) (r : PlanRow) : Option Nat :=
  (normNumOpt r.numero).map (fun n => natDist n t)

/-- The second loop of `find_best`: keep the first candidate attaining the
strictly smallest absolute difference seen so far (`diff < bd` updates). -/
def scanBest (t : Nat) : List PlanRow → Option (PlanRow × Nat) → Option (PlanRow × Nat)
  | [], acc => acc
  | r :: rest, acc =>
      match diffOf t r with
      | none => scanBest t rest acc
      | some d =>
          match acc with
          | none => scanBest t rest (some (r, d))
          | some (b, bd) =>
              if d < bd then scanBest t rest (some (r, d))
              else scanBest t rest (some (b, bd))

/-- `find_best` of `compare_planilha.py` (equally `find_best_match` of
`make_planilha.py`, which runs on pre-normalized rows): `None` target gives
`(None, None)`; otherwise the first exact normalized match wins with
distance 0; otherwise the nearest defined candidate is returned when its
distance is at most `maxdiff` (source default 5), else `(None, None)`. -/
def find_best (target : Option Nat) (rs : List PlanRow) (maxdiff : Nat) :
    Option PlanRow × Option Nat :=
  match target with
  | none => (none, none)
  | some t =>
      match rs.find? (fun r => normNumOpt r.numero == some t) with
      | some r => (some r, some 0)
      | none =>
          match scanBest t rs none with
          | some (b, bd) => if bd ≤ maxdiff then (some b, some bd) else (none, none)
          | none => (none, none)

/-! ### Matcher lemmas -/

lemma scanBest_acc (t : Nat) :
    ∀ (rs : List PlanRow) (b : PlanRow) (bd : Nat), diffOf t b = some bd →
      ∃ r m, scanBest t rs (some (b, bd)) = some (r, m) ∧ diffOf t r = some m ∧
        m ≤ bd ∧ (r = b ∨ r ∈ rs) ∧
        ∀ r' ∈ rs, ∀ d', diffOf t r' = some d' → m ≤ d' := by
  intro rs
  induction rs with
  | nil =>
      intro b bd hb
      exact ⟨b, bd, rfl, hb, le_refl _, Or.inl rfl, by simp⟩
  | cons r rest ih =>
      intro b bd hb
      cases hd : diffOf t r with
      | none =>
          obtain ⟨r', m, heq, hdm, hle, hmem, hmin⟩ := ih b bd hb
          refine ⟨r', m, ?_, hdm, hle, ?_, ?_⟩
          · simpa [scanBest, hd] using heq
          · rcases hmem with h | h
            · exact Or.inl h
            · exact Or.inr (List.mem_cons_of_mem _ h)
          · intro r'' h'' d' hd'
            rcases List.mem_cons.mp h'' with h | h
            · subst h; rw [hd] at hd'; cases hd'
            · exact hmin r'' h d' hd'
      | some d =>
          by_cases hlt : d < bd
          · obtain ⟨r', m, heq, hdm, hle, hmem, hmin⟩ := ih r d hd
            refine ⟨r', m, ?_, hdm, le_trans hle (le_of_lt hlt), ?_, ?_⟩
            · simpa [scanBest, hd, if_pos hlt] using heq
            · rcases hmem with h | h
              · exact Or.inr (h ▸ List.mem_cons_self _ _)
              · exact Or.inr (List.mem_cons_of_mem _ h)
            · intro r'' h'' d' hd'
              rcases List.mem_cons.mp h'' with h | h
              · subst h; rw [hd] at hd'; injection hd' with e
                exact e ▸ hle
              · exact hmin r'' h d' hd'
          · obtain ⟨r', m, heq, hdm, hle, hmem, hmin⟩ := ih b bd hb
            refine ⟨r', m, ?_, hdm, hle, ?_, ?_⟩
            · simpa [scanBest, hd, if_neg hlt] using heq
            · rcases hmem with h | h
              · exact Or.inl h
              · exact Or.inr (List.mem_cons_of_mem _ h)
            · intro r'' h'' d' hd'
              rcases List.mem_cons.mp h'' with h | h
              · subst h; rw [hd] at hd'; injection hd' with e
                exact e ▸ le_trans hle (not_lt.mp hlt)
              · exact hmin r'' h d' hd'

lemma scanBest_all_none (t : Nat) :
    ∀ rs : List PlanRow, (∀ r ∈ rs, diffOf t r = none) → scanBest t rs none = none := by
  intro rs
  induction rs with
  | nil => intro _; rfl
  | cons r rest ih =>
      intro h
      have hd : diffOf t r = none := h r (List.mem_cons_self _ _)
      have := ih (fun x hx => h x (List.mem_cons_of_mem _ hx))
      simpa [scanBest, hd] using this

lemma scanBest_start (t : Nat) :
    ∀ rs : List PlanRow, (∃ r ∈ rs, (diffOf t r).isSome) →
      ∃ r m, scanBest t rs none = some (r, m) ∧ diffOf t r = some m ∧ r ∈ rs ∧
        ∀ r' ∈ rs, ∀ d', diffOf t r' = some d' → m ≤ d' := by
  intro rs
  induction rs with
  | nil => rintro ⟨r, h, _⟩; cases h
  | cons r rest ih =>
      rintro ⟨r0, hr0, hs⟩
      cases hd : diffOf t r with
      | none =>
          have hrest : ∃ x ∈ rest, (diffOf t x).isSome := by
            rcases List.mem_cons.mp hr0 with h | h
            · subst h; rw [hd] at hs; simp at hs
            · exact ⟨r0, h, hs⟩
          obtain ⟨r', m, heq, hdm, hmem, hmin⟩ := ih hrest
          refine ⟨r', m, ?_, hdm, List.mem_cons_of_mem _ hmem, ?_⟩
          · simpa [scanBest, hd] using heq
          · intro r'' h'' d' hd'
            rcases List.mem_cons.mp h'' with h | h
            · subst h; rw [hd] at hd'; cases hd'
            · exact hmin r'' h d' hd'
      | some d =>
          obtain ⟨r', m, heq, hdm, hle, hmem, hmin⟩ := scanBest_acc t rest r d hd
          refine ⟨r', m, ?_, hdm, ?_, ?_⟩
          · simpa [scanBest, hd] using heq
          · rcases hmem with h | h
            · exact h ▸ List.mem_cons_self _ _
            · exact List.mem_cons_of_mem _ h
          · intro r'' h'' d' hd'
            rcases List.mem_cons.mp h'' with h | h
            · subst h; rw [hd] at hd'; injection hd' with e
              exact e ▸ hle
            · exact hmin r'' h d' hd'

lemma exists_find?_eq_some {α} (p : α → Bool) :
    ∀ l : List α, (∃ x ∈ l, p x) → ∃ y, l.find? p = some y := by
  intro l
  induction l with
  | nil => rintro ⟨x, h, _⟩; cases h
  | cons a l ih =>
      rintro ⟨x, hx, hpx⟩
      by_cases hpa : p a
      · exact ⟨a, List.find?_cons_of_pos _ hpa⟩
      · rcases List.mem_cons.mp hx with h | h
        · subst h; exact absurd hpx hpa
        · obtain ⟨y, hy⟩ := ih ⟨x, h, hpx⟩
          exact ⟨y, by rw [List.find?_cons_of_neg _ hpa]; exact hy⟩

lemma find?_split {α} (p : α → Bool) :
    ∀ (l : List α) (x : α), l.find? p = some x →
      ∃ l1 l2, l = l1 ++ x :: l2 ∧ p x ∧ ∀ y ∈ l1, ¬ p y := by
  intro l
  induction l with
  | nil => intro x h; cases h
  | cons a l ih =>
      intro x h
      by_cases hpa : p a
      · rw [List.find?_cons_of_pos _ hpa] at h
        injection h with e
        subst e
        exact ⟨[], l, rfl, hpa, by simp⟩
      · rw [List.find?_cons_of_neg _ hpa] at h
        obtain ⟨l1, l2, hl, hpx, hnone⟩ := ih x h
        refine ⟨a :: l1, l2, by rw [hl]; rfl, hpx, ?_⟩
        intro y hy
        rcases List.mem_cons.mp hy with h' | h'
        · subst h'; exact hpa
        · exact hnone y h'

/-- C1: with a defined target and no exact candidate, `find_best` (tolerance
5, the source default) returns a nearest defined candidate together with the
minimum absolute difference whenever that minimum is at most 5 (the bound is
inclusive), and returns `(none, none)` whenever every defined candidate's
difference is strictly greater than 5. -/
theorem find_best_tolerance_boundary (t : Nat) (rs : List PlanRow)
    (hnoexact : ∀ r ∈ rs, normNumOpt r.numero ≠ some t) :
    ((∀ r ∈ rs, ∀ d, diffOf t r = some d → 5 < d) →
        find_best (some t) rs 5 = (none, none)) ∧
    (∀ r0 ∈ rs, ∀ d0, diffOf t r0 = some d0 → d0 ≤ 5 →
      ∃ r m, find_best (some t) rs 5 = (some r, some m) ∧ r ∈ rs ∧
        diffOf t r = some m ∧ m ≤ 5 ∧
        ∀ r' ∈ rs, ∀ d', diffOf t r' = some d' → m ≤ d') := by
  have hfind : rs.find? (fun r => normNumOpt r.numero == some t) = none := by
    apply List.find?_eq_none.mpr
    intro x hx
    simpa using hnoexact x hx
  constructor
  · intro hall
    by_cases hex : ∃ r ∈ rs, (diffOf t r).isSome
    · obtain ⟨r, m, heq, hdm, hmem, _⟩ := scanBest_start t rs hex
      have h5 : 5 < m := hall r hmem m hdm
      simp [find_best, hfind, heq, Nat.not_le.mpr h5]
    · push_neg at hex
      have hallnone : ∀ r ∈ rs, diffOf t r = none := by
        intro r hr
        have h2 := hex r hr
        cases h : diffOf t r with
        | none => rfl
        | some d => rw [h] at h2; simp at h2
      simp [find_best, hfind, scanBest_all_none t rs hallnone]
  · intro r0 h0 d0 hd0 hle
    have hex : ∃ r ∈ rs, (diffOf t r).isSome := ⟨r0, h0, by rw [hd0]; rfl⟩
    obtain ⟨r, m, heq, hdm, hmem, hmin⟩ := scanBest_start t rs hex
    have hm5 : m ≤ 5 := le_trans (hmin r0 h0 d0 hd0) hle
    exact ⟨r, m, by simp [find_best, hfind, heq, hm5], hmem, hdm, hm5, hmin⟩

/-- Witness for C1: target 200 against the single candidate 206 (difference
6, strictly beyond tolerance) is rejected, while target 200 against
candidates 195 and 210 (minimum difference exactly 5) is accepted. -/
theorem find_best_tolerance_boundary_witness :
    find_best (some 200) [PlanRow.mk (some "206") none none] 5 = (none, none) ∧
    (∃ r m,
      find_best (some 200)
        [PlanRow.mk (some "195") none none, PlanRow.mk (some "210") none none] 5 =
        (some r, some m) ∧ m ≤ 5) := by
  constructor
  · exact (find_best_tolerance_boundary 200 [PlanRow.mk (some "206") none none]
      (by decide)).1 (by decide)
  · obtain ⟨r, m, heq, _, _, hm5, _⟩ :=
      (find_best_tolerance_boundary 200
        [PlanRow.mk (some "195") none none, PlanRow.mk (some "210") none none]
        (by decide)).2
        (PlanRow.mk (some "195") none none) (by decide) 5 (by decide) (by decide)
    exact ⟨r, m, heq, hm5⟩

/-- C2: when some candidate's normalized number equals the target, `find_best`
returns the first such candidate in list-scan order with distance 0,
regardless of the other candidates before or after it. -/
theorem find_best_exact_first (t : Nat) (rs : List PlanRow)
    (hex : ∃ r ∈ rs, normNumOpt r.numero = some t) :
    ∃ l1 r l2, rs = l1 ++ r :: l2 ∧ normNumOpt r.numero = some t ∧
      (∀ r' ∈ l1, normNumOpt r'.numero ≠ some t) ∧
      find_best (some t) rs 5 = (some r, some 0) := by
  obtain ⟨y, hy⟩ := exists_find?_eq_some (fun r => normNumOpt r.numero == some t) rs (by
    obtain ⟨r, hr, he⟩ := hex
    exact ⟨r, hr, by simpa using he⟩)
  obtain ⟨l1, l2, hl, hpy, hneg⟩ := find?_split _ rs y hy
  refine ⟨l1, y, l2, hl, by simpa using hpy, ?_, ?_⟩
  · intro r' hr'
    simpa using hneg r' hr'
  · simp [find_best, hy]

/-- Witness for C2 (the spec's own test case): candidates with normalized
numbers 100 and 101 and target 101 give the exact match with distance 0. -/
theorem find_best_exact_first_witness :
    ∃ l1 r l2,
      [PlanRow.mk (some "100") none none, PlanRow.mk (some "101") none none] =
        l1 ++ r :: l2 ∧ normNumOpt r.numero = some 101 ∧
      (∀ r' ∈ l1, normNumOpt r'.numero ≠ some 101) ∧
      find_best (some 101)
        [PlanRow.mk (some "100") none none, PlanRow.mk (some "101") none none] 5 =
        (some r, some 0) :=
  find_best_exact_first 101 _ ⟨PlanRow.mk (some "101") none none, by decide, by decide⟩

/-! ## The classifier

`compare_planilha.classify` inspects the raw `emissao` string and obtains
the hour from the first `HH:MM` substring (`re.search(r"(\d{2}):(\d{2})")`);
`make_planilha.classify_by_valor_emissao` takes an already parsed
`datetime` and reads `.hour`.  -/

/-- A parsed `datetime.datetime` (the fields this pipeline reads). -/
structure PyDateTime where
  year : Nat
  month : Nat
  day : Nat
  hour : Nat
  minute : Nat
  second : Nat
deriving DecidableEq, Repr

/-- `classify_by_valor_emissao` of `make_planilha.py`. -/
def classify_by_valor_emissao (valor : Option ℚ) (emissao : Option PyDateTime) : String :=
  match valor with
  | none => "SEM_VALOR"
  | some v =>
      if 100 < v then "HOTEL"
      else if 40 ≤ v ∧ v ≤ 55 then
        match emissao with
        | none => "ALMOCO?"
        | some em => if em.hour < 16 then "ALMOCO" else "JANTA"
      else "OUTRO"

/-- First `HH:MM` substring scan of `classify`:
`re.search(r"(\d{2}):(\d{2})", emissao_str)`, hour = first group.  The
pattern has fixed length, so leftmost-match search is a character shift
scan. -/
def findHourHHMM : List Char → Option Nat
  | a :: b :: c :: d :: e :: rest =>
      if a.isDigit ∧ b.isDigit ∧ c = ':' ∧ d.isDigit ∧ e.isDigit then
        some (10 * digitVal a + digitVal b)
      else findHourHHMM (b :: c :: d :: e :: rest)
  | _ => none

/-- `classify` of `compare_planilha.py`.  (The source also computes a local
`em` from the date part of `emissao_str`; that variable is never read, so it
is omitted here.) -/
def classify (valor : Option ℚ) (emissao_str : String) : String :=
  match valor with
  | none => "SEM_VALOR"
  | some v =>
      if 100 < v then "HOTEL"
      else if 40 ≤ v ∧ v ≤ 55 then
        match findHourHHMM emissao_str.data with
        | none => "ALMOCO?"
        | some h => if h < 16 then "ALMOCO" else "JANTA"
      else "OUTRO"

/-- The closed decision table exactly as the specification words it
(refinement reference for C3; written from the spec's words, to be compared
with the source-derived classifiers): absent amount is `SEM_VALOR`; amount
above 100 is `HOTEL`; amount in `[40, 55]` is `ALMOCO?` without a
time-of-day, `ALMOCO` before hour 16 and `JANTA` from hour 16 on; every
other amount is `OUTRO`. -/
def classifySpecTable (amount : Option ℚ) (tod : Option Nat) : String :=
  match amount with
  | none => "SEM_VALOR"
  | some a =>
      if 100 < a then "HOTEL"
      else if 40 ≤ a ∧ a ≤ 55 then
        match tod with
        | none => "ALMOCO?"
        | some h => if h < 16 then "ALMOCO" else "JANTA"
      else "OUTRO"

/-! ## `strptime` model for the `emissao` formats of `make_planilha.py`

`parse_result_emissao` tries `%d/%m/%Y %H:%M:%S`, `%d/%m/%Y %H:%M` and
`%d/%m/%Y` in order.  CPython's `_strptime` compiles each directive to a
regex alternation (two-digit branches first, then a bare digit), requires
the whole string to be consumed, and `datetime.strptime` finally validates
the calendar date; missing time fields default to zero. -/

/-- `%d`: regex `3[01]|[12]\d|0[1-9]|[1-9]`. -/
def parseDay : List Char → Option (Nat × List Char)
  | c1 :: c2 :: rest =>
      if c1.isDigit ∧ c2.isDigit ∧
          ((c1 = '3' ∧ digitVal c2 ≤ 1) ∨ c1 = '1' ∨ c1 = '2' ∨
            (c1 = '0' ∧ 1 ≤ digitVal c2)) then
        some (10 * digitVal c1 + digitVal c2, rest)
      else if c1.isDigit ∧ 1 ≤ digitVal c1 then some (digitVal c1, c2 :: rest)
      else none
  | [c1] => if c1.isDigit ∧ 1 ≤ digitVal c1 then some (digitVal c1, []) else none
  | [] => none

/-- `%m`: regex `1[0-2]|0[1-9]|[1-9]`. -/
def parseMonth : List Char → Option (Nat × List Char)
  | c1 :: c2 :: rest =>
      if c1.isDigit ∧ c2.isDigit ∧
          ((c1 = '1' ∧ digitVal c2 ≤ 2) ∨ (c1 = '0' ∧ 1 ≤ digitVal c2)) then
        some (10 * digitVal c1 + digitVal c2, rest)
      else if c1.isDigit ∧ 1 ≤ digitVal c1 then some (digitVal c1, c2 :: rest)
      else none
  | [c1] => if c1.isDigit ∧ 1 ≤ digitVal c1 then some (digitVal c1, []) else none
  | [] => none

/-- `%H`: regex `2[0-3]|[0-1]\d|\d`. -/
def parseHour : List Char → Option (Nat × List Char)
  | c1 :: c2 :: rest =>
      if c1.isDigit ∧ c2.isDigit ∧
          ((c1 = '2' ∧ digitVal c2 ≤ 3) ∨ c1 = '0' ∨ c1 = '1') then
        some (10 * digitVal c1 + digitVal c2, rest)
      else if c1.isDigit then some (digitVal c1, c2 :: rest)
      else none
  | [c1] => if c1.isDigit then some (digitVal c1, []) else none
  | [] => none

/-- `%M` and `%S`: regex `[0-5]\d|\d`. -/
def parseMinSec : List Char → Option (Nat × List Char)
  | c1 :: c2 :: rest =>
      if c1.isDigit ∧ c2.isDigit ∧ digitVal c1 ≤ 5 then
        some (10 * digitVal c1 + digitVal c2, rest)
      else if c1.isDigit then some (digitVal c1, c2 :: rest)
      else none
  | [c1] => if c1.isDigit then some (digitVal c1, []) else none
  | [] => none

/-- `%Y`: exactly four digits. -/
def parseYear4 : List Char → Option (Nat × List Char)
  | c1 :: c2 :: c3 :: c4 :: rest =>
      if c1.isDigit ∧ c2.isDigit ∧ c3.isDigit ∧ c4.isDigit then
        some (digitsVal [c1, c2, c3, c4], rest)
      else none
  | _ => none

/-- A literal format character. -/
def parseLit (c : Char) : List Char → Option (List Char)
  | x :: rest => if x = c then some rest else none
  | [] => none

/-- A literal whitespace in the format maps to `\s+`. -/
def parseWs1 : List Char → Option (List Char)
  | c :: rest =>
      if c.isWhitespace then some (rest.dropWhile Char.isWhitespace) else none
  | [] => none

def leapYear (y : Nat) : Bool := (y % 4 == 0 && y % 100 != 0) || y % 400 == 0

def daysInMonth (y m : Nat) : Nat :=
  if m = 2 then (if leapYear y then 29 else 28)
  else if m = 4 ∨ m = 6 ∨ m = 9 ∨ m = 11 then 30
  else 31

/-- The calendar validation `datetime.datetime` applies on construction. -/
def validDate (y m d : Nat) : Prop :=
  1 ≤ y ∧ 1 ≤ m ∧ m ≤ 12 ∧ 1 ≤ d ∧ d ≤ daysInMonth y m

instance (y m d : Nat) : Decidable (validDate y m d) :=
  inferInstanceAs (Decidable (1 ≤ y ∧ 1 ≤ m ∧ m ≤ 12 ∧ 1 ≤ d ∧ d ≤ daysInMonth y m))

/-- Python `str.strip()` on a character list (whitespace at both ends). -/
def pyStrip (cs : List Char) : List Char :=
  ((cs.dropWhile Char.isWhitespace).reverse.dropWhile Char.isWhitespace).reverse

/-- The common `%d/%m/%Y` front of every accepted format. -/
def parseDMY (cs : List Char) : Option ((Nat × Nat × Nat) × List Char) := do
  let (d, cs) ← parseDay cs
  let cs ← parseLit '/' cs
  let (m, cs) ← parseMonth cs
  let cs ← parseLit '/' cs
  let (y, cs) ← parseYear4 cs
  pure ((d, m, y), cs)

/-- `%d/%m/%Y %H:%M:%S`, full-string match. -/
def parseFmtFull (cs : List Char) : Option PyDateTime := do
  let ((d, m, y), cs) ← parseDMY cs
  let cs ← parseWs1 cs
  let (h, cs) ← parseHour cs
  let cs ← parseLit ':' cs
  let (mi, cs) ← parseMinSec cs
  let cs ← parseLit ':' cs
  let (sec, cs) ← parseMinSec cs
  if cs = [] ∧ validDate y m d then pure ⟨y, m, d, h, mi, sec⟩ else none

/-- `%d/%m/%Y %H:%M`, full-string match; seconds default to 0. -/
def parseFmtHM (cs : List Char) : Option PyDateTime := do
  let ((d, m, y), cs) ← parseDMY cs
  let cs ← parseWs1 cs
  let (h, cs) ← parseHour cs
  let cs ← parseLit ':' cs
  let (mi, cs) ← parseMinSec cs
  if cs = [] ∧ validDate y m d then pure ⟨y, m, d, h, mi, 0⟩ else none

/-- `%d/%m/%Y`, full-string match; the whole time of day defaults to 0. -/
def parseFmtDate (cs : List Char) : Option PyDateTime := do
  let ((d, m, y), cs) ← parseDMY cs
  if cs = [] ∧ validDate y m d then pure ⟨y, m, d, 0, 0, 0⟩ else none

/-- `parse_result_emissao` of `make_planilha.py`: falsy input gives `None`;
otherwise strip, drop double quotes, and try the three formats in order. -/
def parse_result_emissao (s : String) : Option PyDateTime :=
  if s = "" then none
  else
    let cs := (pyStrip s.data).filter (fun c => c ≠ '"')
    ((parseFmtFull cs).orElse fun _ => (parseFmtHM cs).orElse fun _ => parseFmtDate cs)

/-- C3: both classifiers implement exactly the closed decision table —
`classify_by_valor_emissao` equals the spec table pointwise (with the
time-of-day being the parsed hour), and the literal cases of the table
hold for the string-driven `classify` as well: 150.00 is `HOTEL`, 45.00 at
hour 11 is `ALMOCO`, 45.00 at hour 19 is `JANTA`, 45.00 with the
time-of-day absent is `ALMOCO?`, an absent amount is `SEM_VALOR` and 20.00
is `OUTRO`. -/
theorem classify_decision_table :
    (∀ (v : Option ℚ) (e : Option PyDateTime),
        classify_by_valor_emissao v e = classifySpecTable v (e.map PyDateTime.hour)) ∧
    classify (some 150) "05/11/2025 12:00:00" = "HOTEL" ∧
    classify (some 45) "05/11/2025 11:30:00" = "ALMOCO" ∧
    classify (some 45) "05/11/2025 19:30:00" = "JANTA" ∧
    classify (some 45) "" = "ALMOCO?" ∧
    classify none "" = "SEM_VALOR" ∧
    classify (some 20) "" = "OUTRO" ∧
    classify_by_valor_emissao (some 45) (some ⟨2025, 11, 5, 11, 0, 0⟩) = "ALMOCO" ∧
    classify_by_valor_emissao (some 45) (some ⟨2025, 11, 5, 19, 0, 0⟩) = "JANTA" ∧
    classify_by_valor_emissao (some 45) none = "ALMOCO?" := by
  refine ⟨?_, by decide, by decide, by decide, by decide, by decide, by decide,
    by decide, by decide, by decide⟩
  intro v e
  cases v with
  | none => rfl
  | some v => cases e <;> rfl

/-- C4 counterexample: a date-only issuance string is parsed by
`parse_result_emissao` of `make_planilha.py` to midnight (hour 0), not to
an absent time, so classifying an in-band amount against it yields
`ALMOCO`, contradicting the claim that it yields `ALMOCO?` and never
`ALMOCO`. -/
theorem date_only_defaults_to_midnight :
    parse_result_emissao "05/11/2025" = some ⟨2025, 11, 5, 0, 0, 0⟩ ∧
    classify_by_valor_emissao (some 45) (parse_result_emissao "05/11/2025") = "ALMOCO" ∧
    "ALMOCO" ≠ "ALMOCO?" := by
  refine ⟨by decide, by decide, by decide⟩

/-- C4 amended: only `compare_planilha.classify`, which looks for an
`HH:MM` substring in the raw issuance string, treats a date-only issuance
as having an absent time and yields `ALMOCO?`; `make_planilha`'s
`parse_result_emissao` parses a date-only string to a midnight timestamp,
so `classify_by_valor_emissao` yields `ALMOCO` there. -/
theorem date_only_time_absent_amended :
    classify (some 45) "05/11/2025" = "ALMOCO?" ∧
    (parse_result_emissao "05/11/2025").map PyDateTime.hour = some 0 ∧
    classify_by_valor_emissao (some 45) (parse_result_emissao "05/11/2025") = "ALMOCO" := by
  refine ⟨by decide, by decide, by decide⟩

/-! ### Normalisation lemmas (C5) -/

lemma digitsVal_dropZeros :
    ∀ ds : List Char, digitsVal (ds.dropWhile (fun c => c = '0')) = digitsVal ds := by
  intro ds
  induction ds with
  | nil => rfl
  | cons c ds ih =>
      by_cases h : c = '0'
      · subst h
        have h0 : (10 * 0 + digitVal '0') = 0 := by decide
        simpa [digitsVal, List.dropWhile, h0] using ih
      · simp [List.dropWhile, h]

lemma digitsVal_strip (ds : List Char) :
    digitsVal (stripLeadingZeros ds) = digitsVal ds := by
  show digitsVal (if ds.dropWhile (fun c => c = '0') = [] then ['0']
      else ds.dropWhile (fun c => c = '0')) = digitsVal ds
  by_cases h : ds.dropWhile (fun c => c = '0') = []
  · rw [if_pos h, ← digitsVal_dropZeros ds, h]
    decide
  · rw [if_neg h, digitsVal_dropZeros]

lemma firstDigitRun_eq_none :
    ∀ cs : List Char, (∀ c ∈ cs, ¬ c.isDigit) → firstDigitRun cs = none := by
  intro cs
  induction cs with
  | nil => intro _; rfl
  | cons c rest ih =>
      intro h
      have hc : ¬ c.isDigit := h c (List.mem_cons_self _ _)
      have := ih (fun x hx => h x (List.mem_cons_of_mem _ hx))
      simpa [firstDigitRun, hc] using this

/-- C5: normalization takes the first run of consecutive decimal digits,
strips leading zeros without changing the value, and yields a non-negative
integer; `"00123-X"` normalizes to 123, and a string with no digit at all
normalizes to absent. -/
theorem normalize_num_first_run_spec :
    normalize_num "00123-X" = some 123 ∧
    (∀ s : String, (∀ c ∈ s.data, ¬ c.isDigit) → normalize_num s = none) ∧
    (∀ (s : String) (ds : List Char), firstDigitRun s.data = some ds →
      normalize_num s = some (digitsVal ds)) ∧
    (∀ (s : String) (n : Nat), normalize_num s = some n → 0 ≤ (n : ℤ)) := by
  refine ⟨by decide, ?_, ?_, ?_⟩
  · intro s h
    unfold normalize_num
    rw [firstDigitRun_eq_none s.data h]
    rfl
  · intro s ds h
    unfold normalize_num
    rw [h]
    simp [digitsVal_strip]
  · intro s n _
    exact Int.ofNat_nonneg n

/-- Witness for the hypothesised parts of C5: the digit-free string
`"no digits here"` normalizes to absent, and the first digit run `"00123"` of
`"00123-X"` gives the normalized value directly. -/
theorem normalize_num_first_run_spec_witness :
    normalize_num "no digits here" = none ∧
    normalize_num "00123-X" = some (digitsVal ['0', '0', '1', '2', '3']) := by
  constructor
  · exact normalize_num_first_run_spec.2.1 "no digits here" (by decide)
  · exact normalize_num_first_run_spec.2.2.1 "00123-X" ['0', '0', '1', '2', '3'] (by decide)

/-! ## Currency parsing (C10)

`parse_currency` of `compare_planilha.py` and `parse_brazil_currency` of
`make_planilha.py` have line-for-line identical bodies:
`strip`, drop `"` and spaces, empty gives `None`, then
`replace('.', '').replace(',', '.')` and `float(...)`. -/

/-- `str(s).strip().replace('"', '').replace(' ', '')`. -/
def currencyStrip (s : String) : List Char :=
  (pyStrip s.data).filter (fun c => c ≠ '"' ∧ c ≠ ' ')

/-- `s.replace('.', '').replace(',', '.')`: every dot is deleted
unconditionally (the thousands-separator assumption) and then every comma
becomes a decimal point. -/
def currencyCanon (cs : List Char) : List Char :=
  (cs.filter (fun c => c ≠ '.')).map (fun c => if c = ',' then '.' else c)

/-- Python `float()` restricted to the unsigned plain decimal literals the
canonicalised currency strings consist of (exponent notation and the
special values never arise from digit-and-separator cells). -/
def parseUnsignedFloat (cs : List Char) : Option ℚ :=
  let ip := cs.takeWhile Char.isDigit
  let rest := cs.dropWhile Char.isDigit
  match rest with
  | [] => if ip = [] then none else some (digitsVal ip)
  | '.' :: fp =>
      if fp.all Char.isDigit ∧ (ip ≠ [] ∨ fp ≠ []) then
        some ((digitsVal ip : ℚ) + (digitsVal fp : ℚ) / (10 : ℚ) ^ fp.length)
      else none
  | _ => none

/-- Python `float()` with an optional sign in front. -/
def parseFloatChars : List Char → Option ℚ
  | '-' :: rest => (parseUnsignedFloat rest).map (fun q => -q)
  | '+' :: rest => parseUnsignedFloat rest
  | cs => parseUnsignedFloat cs

/-- `parse_currency` of `compare_planilha.py`. -/
def parse_currency (s : String) : Option ℚ :=
  let cs := currencyStrip s
  if cs = [] then none
  else parseFloatChars (currencyCanon cs)

/-- `parse_brazil_currency` of `make_planilha.py`; its body is identical to
`parse_currency` line for line. -/
def parse_brazil_currency (s : String) : Option ℚ := parse_currency s

/-- C10: both currency parsers delete every `.` before numeric conversion —
after canonicalisation a dot can only stem from a comma — so the
dot-decimal string `"47.50"` parses to 4750, one hundred times its face
value, not to 47.5. -/
theorem currency_dot_deleted_unconditionally :
    (∀ s : String, (∀ c ∈ currencyStrip s, c ≠ ',') →
        ∀ c ∈ currencyCanon (currencyStrip s), c ≠ '.') ∧
    parse_currency "47.50" = some 4750 ∧
    parse_brazil_currency "47.50" = some 4750 ∧
    parse_currency "47.50" ≠ some ((95 : ℚ) / 2) := by
  refine ⟨?_, by decide, by decide, ?_⟩
  · intro s hnc c hc
    obtain ⟨c0, hc0, hmap⟩ := List.mem_map.mp hc
    obtain ⟨h2, h1b⟩ := List.mem_filter.mp hc0
    have h1 : c0 ≠ '.' := by simpa using h1b
    have hcomma : c0 ≠ ',' := hnc c0 h2
    rw [if_neg hcomma] at hmap
    exact hmap ▸ h1
  · intro h
    have h2 : parse_currency "47.50" = some 4750 := by decide
    rw [h2] at h
    have : (4750 : ℚ) = (95 : ℚ) / 2 := by exact_mod_cast Option.some.inj h
    norm_num at this

/-- Witness for the hypothesised part of C10: the canonicalised form of
`"47.50"` (which has no comma) contains no dot. -/
theorem currency_dot_deleted_unconditionally_witness :
    ∀ c ∈ currencyCanon (currencyStrip "47.50"), c ≠ '.' :=
  currency_dot_deleted_unconditionally.1 "47.50" (by decide)

/-! ## The output-assembly loop of `compare_planilha.main` (C6)

One output row is produced per `comparar` row, in loop order; the row is a
copy of the reference dict (`dict(c)`) updated with the five added columns.
A CSV row is modelled as an association list with unique keys in insertion
order, which is what `csv.DictReader` yields. -/

/-- A Python CSV-row dict. -/
abbrev CompRow := List (String × String)

/-- `d[k] = v` on a dict: replace the key in place, else append. -/
def setField : CompRow → String → String → CompRow
  | [], k, v => [(k, v)]
  | (k0, v0) :: rest, k, v =>
      if k0 = k then (k, v) :: rest else (k0, v0) :: setField rest k v

/-- `d.get(k)`. -/
def getField (row : CompRow) (k : String) : Option String :=
  (row.find? (fun kv => kv.1 == k)).map Prod.snd

/-- Rendering of the matched `valor` cell (Python keeps the float in the
dict and `csv.DictWriter` stringifies it; the exact rendering is outside
every claim). -/
def valToStr : Option ℚ → String
  | none => ""
  | some q => toString q

/-- The five columns `compare_planilha.main` adds, in update order. -/
def extraCols : List String :=
  ["classificacao", "matched_num", "matched_valor", "matched_emissao", "observacao"]

/-- `out = dict(c); out.update({... five added columns ...})`. -/
def addOutCols (c : CompRow) (cls mnum mval mem note : String) : CompRow :=
  setField (setField (setField (setField (setField c
    "classificacao" cls) "matched_num" mnum) "matched_valor" mval)
    "matched_emissao" mem) "observacao" note

/-- The body of the per-reference loop of `compare_planilha.main`:
normalize `numNotaFiscal`, run the matcher over the planilha rows, derive
the added cells (`NAO_ENCONTRADO` when unmatched; `str(normalize_num(...)
or '')` for the matched number, so a normalized 0 renders empty; `OK` for
an exact match and `VERIFICAR_NUMNOTA (dif=D)` otherwise), and update a
copy of the reference row with the five added columns. -/
def processComp (resultados : List PlanRow) (c : CompRow) : CompRow :=
  let target := (getField c "numNotaFiscal").bind normalize_num
  let md := find_best target resultados 5
  let cls :=
    match md.1 with
    | none => "NAO_ENCONTRADO"
    | some m => classify (m.valor_pagar.bind parse_currency) (m.emissao.getD "")
  let mnum :=
    match md.1 with
    | none => ""
    | some m =>
        match normNumOpt m.numero with
        | some n => if n = 0 then "" else toString n
        | none => ""
  let mval :=
    match md.1 with
    | none => ""
    | some m => valToStr (m.valor_pagar.bind parse_currency)
  let mem :=
    match md.1 with
    | none => ""
    | some m => m.emissao.getD ""
  let note :=
    match md.1, md.2 with
    | none, _ => "NAO_ENCONTRADO"
    | some _, some d => if d = 0 then "OK" else "VERIFICAR_NUMNOTA (dif=" ++ toString d ++ ")"
    | some _, none => "VERIFICAR_NUMNOTA (dif=None)"
  addOutCols c cls mnum mval mem note

/-- The whole output loop: one row appended per reference, in input order. -/
def outRows (resultados : List PlanRow) (comps : List CompRow) : List CompRow :=
  comps.map (processComp resultados)

/-! ### Row-frame lemmas (C6) -/

lemma getField_cons (a b : String) (rest : CompRow) (k : String) :
    getField ((a, b) :: rest) k = if a = k then some b else getField rest k := by
  by_cases h : a = k
  · simp [getField, List.find?_cons_of_pos, h]
  · have hb : ((a, b).1 == k) = false := by simpa using h
    simp [getField, List.find?_cons_of_neg, hb, h]

lemma getField_setField_ne (row : CompRow) (k v k' : String) (h : k' ≠ k) :
    getField (setField row k v) k' = getField row k' := by
  induction row with
  | nil => simp [setField, getField_cons, Ne.symm h, getField]
  | cons kv rest ih =>
      obtain ⟨k0, v0⟩ := kv
      by_cases h0 : k0 = k
      · subst h0
        simp [setField, getField_cons, Ne.symm h]
      · simp [setField, h0, getField_cons, ih]

lemma addOutCols_frame (c : CompRow) (cls mnum mval mem note k : String)
    (hk : k ∉ extraCols) :
    getField (addOutCols c cls mnum mval mem note) k = getField c k := by
  simp only [extraCols, List.mem_cons, List.not_mem_nil, or_false] at hk
  push_neg at hk
  obtain ⟨h1, h2, h3, h4, h5⟩ := hk
  unfold addOutCols
  rw [getField_setField_ne _ _ _ _ h5, getField_setField_ne _ _ _ _ h4,
    getField_setField_ne _ _ _ _ h3, getField_setField_ne _ _ _ _ h2,
    getField_setField_ne _ _ _ _ h1]

/-- C6: the pipeline emits exactly one output row per reference row, in
exactly the input order (row `i` of the output is the processed row `i` of
the input — the matcher scans the fully collected planilha, so completion
order cannot influence it), and each output row preserves every original
reference field outside the five added columns unchanged. -/
theorem output_one_row_per_reference_in_order
    (resultados : List PlanRow) (comps : List CompRow) :
    (outRows resultados comps).length = comps.length ∧
    (∀ i : Nat, (outRows resultados comps).get? i =
      (comps.get? i).map (processComp resultados)) ∧
    (∀ (c : CompRow) (k : String), k ∉ extraCols →
      getField (processComp resultados c) k = getField c k) := by
  refine ⟨by simp [outRows], ?_, ?_⟩
  · intro i
    simp [outRows]
  · intro c k hk
    show getField (addOutCols c _ _ _ _ _) k = getField c k
    exact addOutCols_frame _ _ _ _ _ _ _ hk

/-- Witness for C6's hypothesised part: processing a concrete two-column
reference row against a one-row planilha leaves the original `Data` field
unchanged. -/
theorem output_one_row_per_reference_in_order_witness :
    getField
      (processComp [PlanRow.mk (some "101") (some "45,00") (some "05/11/2025 12:10:00")]
        [("numNotaFiscal", "101"), ("Data", "05-11-25")]) "Data" =
      getField [("numNotaFiscal", "101"), ("Data", "05-11-25")] "Data" :=
  (output_one_row_per_reference_in_order
    [PlanRow.mk (some "101") (some "45,00") (some "05/11/2025 12:10:00")]
    [[("numNotaFiscal", "101"), ("Data", "05-11-25")]]).2.2
    [("numNotaFiscal", "101"), ("Data", "05-11-25")] "Data" (by decide)

/-! ## Throttle registry (C8)

The per-host reservation inside `qr_crawler.fetch_url` (lines 101–113;
`tests/crawler.py` computes the same stored value as
`scheduled = allowed_at if allowed_at > now else now`):

    with _LAST_REQUEST_LOCK:
        last = _LAST_REQUEST.get(host, 0)
        allowed = last + per_host_delay
        now = time.time()
        wait = max(0, allowed - now)
        _LAST_REQUEST[host] = now + wait

Every reservation runs inside `_LAST_REQUEST_LOCK`, so concurrent
reservations for one host serialize into some order; the model folds the
reservation step over the serialized sequence of `time.time()` samples.
The allowed-instant a call reserves is the value it writes back. -/

/-- One lock-protected reservation step: the instant written back given the
stored instant `last` (0 for a fresh host) and the sampled clock `now`. -/
def reserveInstant (delay last now : ℚ) : ℚ := now + max 0 (last + delay - now)

/-- The allowed-instants written by a serialized sequence of reservations
for one host, starting from stored value `last`. -/
def throttleInstants (delay : ℚ) : ℚ → List ℚ → List ℚ
  | _, [] => []
  | last, now :: rest =>
      reserveInstant delay last now :: throttleInstants delay (reserveInstant delay last now) rest

lemma reserveInstant_ge (delay last now : ℚ) :
    last + delay ≤ reserveInstant delay last now := by
  have h := le_max_right (0 : ℚ) (last + delay - now)
  unfold reserveInstant
  linarith

lemma throttleInstants_lb (delay : ℚ) (hd : 0 ≤ delay) :
    ∀ (nows : List ℚ) (last : ℚ), ∀ x ∈ throttleInstants delay last nows,
      last + delay ≤ x := by
  intro nows
  induction nows with
  | nil => intro last x hx; cases hx
  | cons now rest ih =>
      intro last x hx
      rcases List.mem_cons.mp hx with h | h
      · exact h ▸ reserveInstant_ge delay last now
      · have h1 := ih (reserveInstant delay last now) x h
        have h2 := reserveInstant_ge delay last now
        linarith

lemma throttleInstants_pairwise (delay : ℚ) (hd : 0 ≤ delay) :
    ∀ (nows : List ℚ) (last : ℚ),
      List.Pairwise (fun a b => a + delay ≤ b) (throttleInstants delay last nows) := by
  intro nows
  induction nows with
  | nil => intro last; exact List.Pairwise.nil
  | cons now rest ih =>
      intro last
      refine List.Pairwise.cons ?_ (ih (reserveInstant delay last now))
      intro x hx
      exact throttleInstants_lb delay hd rest (reserveInstant delay last now) x hx

/-- C8: with a positive per-host delay, any two allowed-instants reserved
for the same host by the lock-serialized reservation sequence are at least
the delay apart, whatever clock values the racing workers sample. -/
theorem throttle_reservations_min_gap (delay : ℚ) (hpos : 0 < delay)
    (nows : List ℚ) (i j : Fin (throttleInstants delay 0 nows).length)
    (hij : i < j) :
    (throttleInstants delay 0 nows).get i + delay ≤
        (throttleInstants delay 0 nows).get j ∧
    delay ≤ |(throttleInstants delay 0 nows).get j -
        (throttleInstants delay 0 nows).get i| := by
  have hp := (List.pairwise_iff_get.mp
    (throttleInstants_pairwise delay (le_of_lt hpos) nows 0)) i j hij
  refine ⟨hp, ?_⟩
  rw [abs_of_nonneg (by linarith)]
  linarith

/-- Witness for C8 (the spec's test case): delay 0.5 s and two racing
reservations sampling the same clock instant 1 yield allowed-instants 1 and
3/2, exactly 0.5 apart. -/
theorem throttle_reservations_min_gap_witness :
    (throttleInstants (1/2) 0 [1, 1]).get ⟨0, by decide⟩ + 1/2 ≤
        (throttleInstants (1/2) 0 [1, 1]).get ⟨1, by decide⟩ ∧
    (1/2 : ℚ) ≤ |(throttleInstants (1/2) 0 [1, 1]).get ⟨1, by decide⟩ -
        (throttleInstants (1/2) 0 [1, 1]).get ⟨0, by decide⟩| :=
  throttle_reservations_min_gap (1/2) (by norm_num) [1, 1]
    ⟨0, by decide⟩ ⟨1, by decide⟩ (by decide)

/-! ## URL normalisation and the throttle key (C7, C9) -/

/-- Whether `pat` is a prefix of `cs`. -/
def isPrefixList : List Char → List Char → Bool
  | [], _ => true
  | _ :: _, [] => false
  | p :: ps, c :: cs => p == c && isPrefixList ps cs

/-- Index of the first occurrence of `pat`, as `str.find`. -/
def findSub (pat : List Char) : List Char → Option Nat
  | [] => if pat = [] then some 0 else none
  | c :: cs =>
      if isPrefixList pat (c :: cs) then some 0
      else (findSub pat cs).map (fun n => n + 1)

/-- The invisible characters `qr_crawler.normalize_url` removes: BOM
U+FEFF, zero-width space U+200B and no-break space U+00A0. -/
def invisibleChars : List Char :=
  [Char.ofNat 0xFEFF, Char.ofNat 0x200B, Char.ofNat 0xA0]

/-- `low.find(scheme)` accepted only at a positive index (`idx > 0`). -/
def posIdx (pat low : List Char) : Option Nat :=
  match findSub pat low with
  | some i => if 0 < i then some i else none
  | none => none

/-- The cut position of `normalize_url`'s scheme-garbage loop: the schemes
are tried in source order and the loop breaks at the first one found at a
positive index. -/
def schemeCutIdx (low : List Char) : Option Nat :=
  ((posIdx ("http://".data) low).orElse fun _ =>
    (posIdx ("https://".data) low).orElse fun _ =>
      posIdx ("file://".data) low)

/-- `normalize_url` of `qr_crawler.py`: strip, drop invisible characters,
cut to a scheme marker found after garbage (the search is case-insensitive,
the kept text keeps its case), keep `file://` targets, and default every
other target to `http://`. -/
def normalize_url (u : String) : String :=
  let cs0 := (pyStrip u.data).filter (fun c => c ∉ invisibleChars)
  if cs0 = [] then String.mk cs0
  else
    let low := cs0.map Char.toLower
    let cs :=
      match schemeCutIdx low with
      | some i => cs0.drop i
      | none => cs0
    if isPrefixList ("file://".data) cs then String.mk cs
    else if isPrefixList ("http://".data) cs || isPrefixList ("https://".data) cs then
      String.mk cs
    else String.mk ("http://".data ++ cs)

/-- `urlparse(u).hostname` for the URL shapes the crawler feeds the
throttle (they always carry an explicit `scheme://`): the authority runs
from the first `//` to the next `/`, `?` or `#`; userinfo up to the last
`@` is dropped, a port after the first following `:` is dropped, and the
result is lowercased; `none` when there is no `//` or the host part is
empty (Python then gives `None`, and an empty host is falsy).  IPv6
bracket literals are outside this model. -/
def extractHostname (u : String) : Option String :=
  match findSub ("//".data) u.data with
  | none => none
  | some i =>
      let netloc := (u.data.drop (i + 2)).takeWhile
        (fun c => c ≠ '/' ∧ c ≠ '?' ∧ c ≠ '#')
      let hostport := (netloc.reverse.takeWhile (fun c => c ≠ '@')).reverse
      let host := hostport.takeWhile (fun c => c ≠ ':')
      if host = [] then none else some (String.mk (host.map Char.toLower))

/-- The throttle key of `qr_crawler.fetch_url`:
`host = urlparse(u).hostname or u`. -/
def hostKey (u : String) : String :=
  match extractHostname u with
  | some h => h
  | none => u

/-- C9 counterexample: the throttle key carries no scheme, so two
well-formed targets that differ only in the scheme are throttled under the
same key, not distinct ones. -/
theorem hostKey_ignores_scheme :
    hostKey "http://example.com/a" = hostKey "https://example.com/b" ∧
    "http://example.com/a" ≠ "https://example.com/b" := by
  refine ⟨by decide, by decide⟩

/-- C9 amended: the throttle registry keys a reservation by the target's
hostname alone (lowercased, no scheme, no port): targets with distinct
parsed hostnames get distinct keys, while targets differing only in the
scheme share one; a target without a parseable hostname falls back to the
whole target string as its key. -/
theorem hostKey_is_hostname_only :
    (∀ (u1 u2 : String) (h1 h2 : String), extractHostname u1 = some h1 →
      extractHostname u2 = some h2 → h1 ≠ h2 → hostKey u1 ≠ hostKey u2) ∧
    (∀ u : String, extractHostname u = none → hostKey u = u) ∧
    hostKey "http://example.com/a" = "example.com" ∧
    hostKey "https://example.com:8443/b" = "example.com" := by
  refine ⟨?_, ?_, by decide, by decide⟩
  · intro u1 u2 h1 h2 e1 e2 hne
    unfold hostKey
    rw [e1, e2]
    exact hne
  · intro u e
    unfold hostKey
    rw [e]

/-- Witness for C9's amended statement: `example.com` and `example.org`
are throttled under distinct keys, and a target with no parseable
hostname keys by the full string. -/
theorem hostKey_is_hostname_only_witness :
    hostKey "http://example.com/a" ≠ hostKey "http://example.org/a" ∧
    hostKey "not a url" = "not a url" := by
  constructor
  · exact hostKey_is_hostname_only.1 "http://example.com/a" "http://example.org/a"
      "example.com" "example.org" (by decide) (by decide) (by decide)
  · exact hostKey_is_hostname_only.2.1 "not a url" (by decide)

/-! ## The fetcher (C7)

`fetch_url` of `qr_crawler.py` (lines 70–143); `crawler.py`'s variant has
the identical shape at the points C7 turns on: the `if not url` early
return sits before the `try`, and the `finally` block stamps
`out['fetch_time']`.  The network, the filesystem and the wall clock are
abstracted into an environment; the HTML text parsing populates only
fields (title, emails, numero, emissao, valor_pagar) no claim about
`fetch_url` mentions, and raising inside it is caught by the same
`except`, so it is not modelled field by field.  The per-host throttle
reservation mutates module-level state and is modelled separately as
`throttleInstants`; it does not touch `fetch_time`. -/

/-- A transport response: status code and resolved final URL. -/
structure HttpResp where
  status : Nat
  finalUrl : String
deriving Repr, DecidableEq

/-- The ambient world of one `fetch_url` call: what the filesystem and the
network answer (exceptions as `Except.error` messages) and the wall-clock
duration the `finally` block measures for this call. -/
structure FetchEnv where
  fileExists : String → Bool
  http : String → Except String HttpResp
  elapsed : ℚ

/-- The result dict of `fetch_url`, restricted to the fields the claims
mention.  `fetch_time` is `none` while it still holds the initial `''`
and `some t` once the `finally` block has stamped it. -/
structure FetchResult where
  orig_url : String
  final_url : String
  status_code : Option Nat
  error : String
  fetch_time : Option ℚ
deriving Repr, DecidableEq

/-- `fetch_url` of `qr_crawler.py`: empty target returns immediately
(before the `try/finally`); a `file://` target reads the filesystem, any
other target is normalized and fetched; transport exceptions become the
`error` field; the `finally` block stamps `fetch_time` on every path that
entered the `try`. -/
def fetch_url (env : FetchEnv) (url : String) : FetchResult :=
  let out : FetchResult :=
    { orig_url := url, final_url := "", status_code := none, error := "", fetch_time := none }
  if url = "" then { out with error := "empty url" }
  else
    let u := normalize_url url
    let res :=
      if isPrefixList ("file://".data) u.data then
        let path := String.mk (u.data.drop 7)
        if env.fileExists path then
          { out with status_code := some 200, final_url := u }
        else
          { out with error := "file not found: " ++ path }
      else
        match env.http u with
        | Except.error e => { out with error := e }
        | Except.ok r => { out with status_code := some r.status, final_url := r.finalUrl }
    { res with fetch_time := some env.elapsed }

/-- A concrete environment in which every file is missing and every
request raises. -/
def envAllFail : FetchEnv :=
  { fileExists := fun _ => false
    http := fun _ => Except.error "connection refused"
    elapsed := 0 }

/-- C7 counterexample: on the empty target string `fetch_url` returns
before the `try/finally`, so `fetch_time` is left empty — the claim that
it is populated for every input, the empty string included, fails. -/
theorem fetch_time_empty_url_unstamped :
    (fetch_url envAllFail "").fetch_time = none ∧
    (fetch_url envAllFail "").error = "empty url" := by
  refine ⟨rfl, rfl⟩

/-- C7 amended: for every non-empty target — transport failures and
local-file not-found included — the `finally` block stamps `fetch_time`
with the measured call duration; only the empty target, which returns
before the `try`, leaves it empty. -/
theorem fetch_time_stamped_nonempty (env : FetchEnv) (url : String) (h : url ≠ "") :
    (fetch_url env url).fetch_time = some env.elapsed := by
  unfold fetch_url
  rw [if_neg h]

/-- Witness for C7's amended statement: a target that fails with a
transport error, a missing local file, and a successful fetch all carry a
stamped `fetch_time`. -/
theorem fetch_time_stamped_nonempty_witness :
    (fetch_url envAllFail "http://example.com").fetch_time = some envAllFail.elapsed ∧
    (fetch_url envAllFail "file:///tmp/missing.html").fetch_time = some envAllFail.elapsed := by
  constructor
  · exact fetch_time_stamped_nonempty envAllFail "http://example.com" (by decide)
  · exact fetch_time_stamped_nonempty envAllFail "file:///tmp/missing.html" (by decide)

end AutoCheckRH
